import Mathlib

/-!
Shallow embedding of the myco-logger core (SQLite record store, filter
engine, statistics/aggregation, derived-field calculators) and proofs of
the specification claims about it.

Numeric conventions of the embedding:
* Percentages and averages that the Python code rounds to one decimal
  place (`round(x, 1)`) are represented exactly as an integer number of
  tenths (so `6.2` is the integer `62`, `150.0` is `1500`).
* The exact unrounded value is carried as a numerator/denominator pair of
  integers (the Python computations at issue are ratios of integers, so
  this loses nothing).  `pyRound1Tenths num den` is the exact-value model
  of Python's `round(num/den, 1)`: round to nearest tenth, ties to even,
  which is the behaviour of CPython's `round` (and of numpy/pandas
  `round`) at representable halfway points.
* Calendar dates are represented by their day ordinal (days since
  1970-01-01, negative before), computed by the standard civil-calendar
  formula, so subtracting ordinals is exactly `(d2 - d1).days`.
-/

/-- Model of Python `round(num/den, 1)` for an exact rational `num/den`
with `den > 0`, returning the result in integer tenths.  Rounds to the
nearest tenth; a value exactly halfway between two tenths goes to the
even number of tenths (banker's rounding).  CPython rounds the computed
DOUBLE, so this exact-rational model coincides with the program only at
inputs whose floating-point computation is exact (as at every input this
file evaluates); at halfway values the double cannot represent, the
program's result follows the double, not the exact value. -/
def pyRound1Tenths (num den : ℤ) : ℤ :=
  let q := (10 * num) / den
  let r := (10 * num) % den
  if 2 * r < den then q
  else if den < 2 * r then q + 1
  else if q % 2 = 0 then q else q + 1

/-- The rounding the SPEC describes, in its words: "round half away from
zero to 1 decimal place".  Stated over the same exact representation, in
tenths; used only to compare the spec's sentence with the code's
behaviour. -/
def specRoundHalfAwayFromZero1Tenths (num den : ℤ) : ℤ :=
  let q := (10 * num) / den
  let r := (10 * num) % den
  if 2 * r < den then q
  else if den < 2 * r then q + 1
  else if 0 ≤ num then q + 1 else q

/-- Embedding of `calculate_success_rate(total, contaminated)` from
`src/utils/calculations.py`: `0.0` when `total <= 0`, otherwise
`(total - contaminated) / total * 100` rounded to one decimal.  The
result is in tenths of a percent. -/
def calculate_success_rate (total contaminated : ℤ) : ℤ :=
  if total ≤ 0 then 0
  else pyRound1Tenths ((total - contaminated) * 100) total

/-- Embedding of `calculate_biological_efficiency(harvest_weight_grams,
substrate_weight_kg)` from `src/utils/calculations.py`.  Inputs are the
exact rational values of the Python floats; the guarded expression
`(harvest / (substrate * 1000)) * 100` is evaluated exactly as the ratio
`(h.num * s.den * 100) / (h.den * s.num * 1000)` and rounded to one
decimal (result in tenths of a percent).  `none` models Python `None`. -/
def calculate_biological_efficiency (harvest_weight_grams substrate_weight_kg : ℚ) : Option ℤ :=
  if substrate_weight_kg ≤ 0 ∨ harvest_weight_grams < 0 then none
  else some (pyRound1Tenths
    (harvest_weight_grams.num * (substrate_weight_kg.den : ℤ) * 100)
    ((harvest_weight_grams.den : ℤ) * substrate_weight_kg.num * 1000))

/-- Gregorian leap-year test, as `datetime` uses. -/
def isLeapYear (y : ℕ) : Bool :=
  (y % 4 == 0 && y % 100 != 0) || y % 400 == 0

/-- Number of days in month `m` of year `y`. -/
def daysInMonth (y m : ℕ) : ℕ :=
  if m = 2 then (if isLeapYear y then 29 else 28)
  else if m = 4 ∨ m = 6 ∨ m = 9 ∨ m = 11 then 30
  else 31

/-- Day count of the civil date `y-m-d` measured from 0000-03-01, via the
standard era/year-of-era formula (valid for `y ≥ 1`). -/
def civilDays (y m d : ℕ) : ℕ :=
  let yy := if m ≤ 2 then y - 1 else y
  let era := yy / 400
  let yoe := yy % 400
  let mp := if m ≤ 2 then m + 9 else m - 3
  let doy := (153 * mp + 2) / 5 + d - 1
  let doe := yoe * 365 + yoe / 4 - yoe / 100 + doy
  era * 146097 + doe

/-- Day ordinal of the civil date `y-m-d`: days since 1970-01-01. -/
def daysFromCivil (y m d : ℕ) : ℤ :=
  (civilDays y m d : ℤ) - 719468

/-- Splits a character list at every `'-'` (model of the separator
handling of `strptime(s, "%Y-%m-%d")`). -/
def splitOnDash : List Char → List (List Char)
  | [] => [[]]
  | c :: cs =>
    match splitOnDash cs with
    | [] => [[]]
    | g :: gs => if c = '-' then [] :: g :: gs else (c :: g) :: gs

/-- Decimal value of a digit list. -/
def digitsToNat (l : List Char) : ℕ :=
  l.foldl (fun acc c => acc * 10 + (c.toNat - 48)) 0

/-- Model of `datetime.strptime(s, "%Y-%m-%d").date()`: accepts
`year-month-day` with exactly 4 year digits (the `%Y` pattern of
CPython's `_strptime` is `\d\d\d\d`, so `'999-12-31'` raises),
1–2 month and day digits, month in `1..12`, day valid for the month,
year in `datetime`'s range (`year ≥ 1`).  Returns the day ordinal, or
`none` where `strptime` raises `ValueError`. -/
def parseDateStr (s : String) : Option ℤ :=
  match splitOnDash s.data with
  | [ys, ms, ds] =>
    if ys.length = 4 ∧ 1 ≤ ms.length ∧ ms.length ≤ 2
        ∧ 1 ≤ ds.length ∧ ds.length ≤ 2
        ∧ ys.all Char.isDigit ∧ ms.all Char.isDigit ∧ ds.all Char.isDigit then
      let y := digitsToNat ys
      let m := digitsToNat ms
      let d := digitsToNat ds
      if 1 ≤ y ∧ 1 ≤ m ∧ m ≤ 12 ∧ 1 ≤ d ∧ d ≤ daysInMonth y m then
        some (daysFromCivil y m d)
      else none
    else none
  | _ => none

/-- The possible runtime values of the `start_date` argument of
`calculate_days_elapsed`: a string, a `datetime`, a `date` (both carried
as their day ordinal), Python `None`, or any other object. -/
inductive PyDateVal where
  | str (s : String)
  | pydatetime (ord : ℤ)
  | pydate (ord : ℤ)
  | none_
  | other
deriving DecidableEq

/-- The body of the `try:` block of `calculate_days_elapsed` in
`src/utils/calculations.py`: converts `start_date` by `isinstance`
dispatch (string → `strptime`, which raises `ValueError` on a malformed
string; `datetime` → `.date()`; `date` → itself; anything else →
`return None`), then returns `(end_date - start_date).days`.
`end_date` is typed `Optional[date]` and defaults to `today`. -/
def days_elapsed_body (start_date : PyDateVal) (end_date : Option ℤ) (today : ℤ) :
    Except String (Option ℤ) :=
  match start_date with
  | .str s =>
    match parseDateStr s with
    | some d => Except.ok (some (end_date.getD today - d))
    | none => Except.error "ValueError"
  | .pydatetime d => Except.ok (some (end_date.getD today - d))
  | .pydate d => Except.ok (some (end_date.getD today - d))
  | .none_ => Except.ok none
  | .other => Except.ok none

/-- Embedding of `calculate_days_elapsed` from
`src/utils/calculations.py`: the `try:` body with the
`except (ValueError, TypeError, AttributeError): return None` handler
applied, so the function is total and every caught fault becomes the
`none` marker. -/
def calculate_days_elapsed (start_date : PyDateVal) (end_date : Option ℤ) (today : ℤ) :
    Option ℤ :=
  match days_elapsed_body start_date end_date today with
  | Except.ok v => v
  | Except.error _ => none

deriving instance DecidableEq for Except

/-- A Python value passed as a keyword argument to the store (string,
int, float — carried as its exact rational value — or `None`). -/
inductive PyVal where
  | s (v : String)
  | i (v : ℤ)
  | q (v : ℚ)
  | none_
deriving DecidableEq

/-- Looks up a column name in a keyword-field mapping (`field in kwargs`
and `kwargs[field]`).  `none` means the key is absent. -/
def lookupField (k : String) : List (String × PyVal) → Option PyVal
  | [] => none
  | (k', v) :: rest => if k = k' then some v else lookupField k rest

/-- One row of the `experiments` table: the store-assigned `id` and
`created_at` plus the columns supplied at insertion. -/
structure DbRow where
  id : ℤ
  created_at : ℕ
  fields : List (String × PyVal)
deriving DecidableEq

/-- The persistent state: the rows, the `AUTOINCREMENT` counter (which
SQLite never decreases, so deleted ids are never reused), and a clock
supplying `created_at`. -/
structure Db where
  rows : List DbRow
  nextId : ℤ
  clock : ℕ
deriving DecidableEq

/-- A freshly initialized database: `AUTOINCREMENT` ids start at 1. -/
def initDb : Db := ⟨[], 1, 0⟩

/-- The required fields checked by `add_experiment`, in source order. -/
def requiredFields : List String :=
  ["experiment_name", "substrate_type", "inoculation_date", "status"]

/-- The columns of the `experiments` table; a key outside this list
makes the dynamically built INSERT raise (`no such column`). -/
def schemaColumns : List String :=
  ["id", "experiment_name", "substrate_type", "substrate_details", "spawn_ratio",
   "substrate_weight_kg", "container_type", "inoculation_date", "colonization_date",
   "first_pin_date", "status", "contamination_type", "contamination_notes", "notes",
   "created_at"]

/-- The NOT NULL columns of the schema other than the primary key; they
coincide with the fields `add_experiment` requires to be present. -/
def notNullColumns : List String := requiredFields

/-- Optional minus sign followed by digits — the TEXT values SQLite
converts to an integer when bound to the INTEGER PRIMARY KEY. -/
def parseIntChars : List Char → Option ℤ
  | [] => none
  | c :: rest =>
    if c = '-' then
      if rest ≠ [] ∧ rest.all Char.isDigit then some (-(digitsToNat rest : ℤ)) else none
    else if (c :: rest).all Char.isDigit then some ((digitsToNat (c :: rest) : ℤ)) else none

/-- How a Python value binds to the INTEGER PRIMARY KEY `id` column:
`some none` is SQL NULL (the store assigns the rowid), `some (some v)`
is the explicit rowid `v` (integers, integral reals and integer-shaped
text all convert), `none` is a datatype mismatch — the INSERT raises. -/
def pyValAsRowid : PyVal → Option (Option ℤ)
  | PyVal.none_ => some none
  | PyVal.i v => some (some v)
  | PyVal.q v => if v.den = 1 then some (some v.num) else none
  | PyVal.s str =>
    match parseIntChars str.data with
    | some v => some (some v)
    | none => none

/-- Embedding of `database.add_experiment(**kwargs)`.  The required
fields are checked first and a missing one raises
`ValueError(f"Missing required field: {field}")` before any SQL runs.
Otherwise the dynamically built INSERT executes: a key that is not a
column raises `OperationalError`; a NULL value in a NOT NULL column
raises `IntegrityError`; a supplied `id` key overrides AUTOINCREMENT —
a non-integer value is a datatype mismatch, a duplicate rowid violates
UNIQUE, and an accepted explicit rowid is returned as `lastrowid` while
the AUTOINCREMENT counter only ever moves up (`max`).  Without an `id`
key (or with a NULL one) the fresh counter value is assigned.  Every
error path rolls back, leaving the database unchanged. -/
def add_experiment (f : List (String × PyVal)) (db : Db) : Except String ℤ × Db :=
  match requiredFields.find? (fun fld => (lookupField fld f).isNone) with
  | some fld => (Except.error ("Missing required field: " ++ fld), db)
  | none =>
    if f.any (fun kv => !(schemaColumns.contains kv.1)) then
      (Except.error "OperationalError: no such column", db)
    else if notNullColumns.any (fun c => lookupField c f == some PyVal.none_) then
      (Except.error "IntegrityError: NOT NULL constraint failed", db)
    else
      match lookupField "id" f with
      | none =>
        (Except.ok db.nextId,
         ⟨db.rows ++ [⟨db.nextId, db.clock, f⟩], db.nextId + 1, db.clock + 1⟩)
      | some v =>
        match pyValAsRowid v with
        | none => (Except.error "IntegrityError: datatype mismatch", db)
        | some none =>
          (Except.ok db.nextId,
           ⟨db.rows ++ [⟨db.nextId, db.clock, f⟩], db.nextId + 1, db.clock + 1⟩)
        | some (some i) =>
          if db.rows.any (fun r => r.id == i) then
            (Except.error "IntegrityError: UNIQUE constraint failed", db)
          else
            (Except.ok i,
             ⟨db.rows ++ [⟨i, db.clock, f⟩], max db.nextId (i + 1), db.clock + 1⟩)

/-- Embedding of `database.get_experiment_by_id`: the row whose `id`
matches, or `None`. -/
def get_experiment_by_id (i : ℤ) (db : Db) : Option DbRow :=
  db.rows.find? (fun r => r.id == i)

/-- Writes one column assignment of an `UPDATE ... SET` clause into a
row's stored fields. -/
def setField (k : String) (v : PyVal) : List (String × PyVal) → List (String × PyVal)
  | [] => [(k, v)]
  | (k', v') :: rest => if k = k' then (k, v) :: rest else (k', v') :: setField k v rest

/-- Embedding of `database.update_experiment(experiment_id, **kwargs)`:
no-op returning `False` when `kwargs` is empty, otherwise applies every
key as a column assignment on the matching row and reports whether a
row was affected.  The callers only ever update status, dates and
notes, so reassigning the `id` or `created_at` columns through an
UPDATE is not modelled: the row's key fields stay put. -/
def update_experiment (i : ℤ) (f : List (String × PyVal)) (db : Db) : Bool × Db :=
  if f.isEmpty then (false, db)
  else
    (db.rows.any (fun r => r.id == i),
     ⟨db.rows.map (fun r =>
        if r.id = i then ⟨r.id, r.created_at, f.foldl (fun acc kv => setField kv.1 kv.2 acc) r.fields⟩
        else r),
      db.nextId, db.clock⟩)

/-- Embedding of `database.delete_experiment`: removes the row and
reports whether one existed.  The `AUTOINCREMENT` counter is untouched,
so the freed id is never handed out again. -/
def delete_experiment (i : ℤ) (db : Db) : Bool × Db :=
  (db.rows.any (fun r => r.id == i),
   ⟨db.rows.filter (fun r => !(r.id == i)), db.nextId, db.clock⟩)

/-- The value of the `status` column of a stored row, when present and
textual (the schema declares `status TEXT NOT NULL`). -/
def rowStatus (r : DbRow) : Option String :=
  match lookupField "status" r.fields with
  | some (PyVal.s v) => some v
  | _ => none

/-- SQL predicate `status NOT IN ('done', 'contaminated')` (false on
NULL, as in SQL). -/
def isActiveRow (r : DbRow) : Bool :=
  match rowStatus r with
  | some v => !(v == "done") && !(v == "contaminated")
  | none => false

/-- SQL predicate `status = 'done'`. -/
def isDoneRow (r : DbRow) : Bool :=
  match rowStatus r with
  | some v => v == "done"
  | none => false

/-- SQL predicate `status = 'contaminated'`. -/
def isContaminatedRow (r : DbRow) : Bool :=
  match rowStatus r with
  | some v => v == "contaminated"
  | none => false

/-- The mapping returned by `database.get_stats`; `success_rate` is in
tenths of a percent. -/
structure Stats where
  total_count : ℕ
  active_count : ℕ
  contaminated_count : ℕ
  success_rate : ℤ
deriving DecidableEq

/-- Embedding of `database.get_stats`: total row count, count with
`status NOT IN ('done','contaminated')`, count with
`status = 'contaminated'`, and `(total - contaminated) / total * 100`
rounded to one decimal (`0.0` when the table is empty). -/
def get_stats (db : Db) : Stats :=
  let total := db.rows.length
  let active := db.rows.countP isActiveRow
  let contaminated := db.rows.countP isContaminatedRow
  let success_rate : ℤ :=
    if 0 < total then pyRound1Tenths (((total : ℤ) - (contaminated : ℤ)) * 100) (total : ℤ)
    else 0
  ⟨total, active, contaminated, success_rate⟩

/-- A store operation of a history: one `add_experiment` or
`delete_experiment` call. -/
inductive DbOp where
  | create (f : List (String × PyVal))
  | del (i : ℤ)

/-- Applies one operation; the second component lists the ids returned
by `create` (empty for failures and for deletes). -/
def applyOp (db : Db) : DbOp → Db × List ℤ
  | .create f =>
      let res := add_experiment f db
      (res.2, match res.1 with | Except.ok i => [i] | Except.error _ => [])
  | .del i => ((delete_experiment i db).2, [])

/-- Runs a history of store operations. -/
def runOps (db : Db) : List DbOp → Db
  | [] => db
  | op :: ops => runOps (applyOp db op).1 ops

/-- All ids returned by the `create` calls of a history, in order,
including ids of rows later deleted. -/
def returnedIds (db : Db) : List DbOp → List ℤ
  | [] => []
  | op :: ops => (applyOp db op).2 ++ returnedIds (applyOp db op).1 ops

/-- One row of the experiments DataFrame, with the columns the filter
and analytics code reads.  `experiment_name` is optional to model a
pandas NA cell; dates are day ordinals (the comparison
`pd.to_datetime(date_string)` performs is exactly calendar-date
order). -/
structure Exp where
  id : ℕ
  experiment_name : Option String
  substrate_type : String
  status : String
  inoculation_date : ℤ
  colonization_date : Option ℤ
  created_at : ℕ
deriving DecidableEq

/-- ASCII lower-casing of one character (the fragment of `str.lower`
the experiment names exercise). -/
def charLower (c : Char) : Char :=
  if 'A' ≤ c ∧ c ≤ 'Z' then Char.ofNat (c.toNat + 32) else c

/-- Checks that the first list is a prefix of the second. -/
def leadsChars : List Char → List Char → Bool
  | [], _ => true
  | _ :: _, [] => false
  | a :: as, b :: bs => a == b && leadsChars as bs

/-- Checks that the pattern occurs as a contiguous run in the list. -/
def containsChars : List Char → List Char → Bool
  | _, [] => true
  | [], _ :: _ => false
  | c :: rest, p :: ps =>
      leadsChars (p :: ps) (c :: rest) || containsChars rest (p :: ps)

/-- Model of `name.str.contains(term, case=False)` on a present cell:
case-insensitive containment. -/
def nameContains (name term : String) : Bool :=
  containsChars (name.data.map charLower) (term.data.map charLower)

/-- Embedding of `filter_experiments` from
`src/pages/2_📊_View_Experiments.py`: the four sequential guarded
filters — status `isin` (skipped when the multiselect list is empty),
substrate `isin` (likewise), case-insensitive name containment with
`na=False` (skipped when the search box is empty), and the inclusive
date range (applied only when both bounds are set). -/
def filter_experiments (df : List Exp) (status_filter substrate_filter : List String)
    (search_term : String) (date_range : Option ℤ × Option ℤ) : List Exp :=
  let d1 := if status_filter.isEmpty then df
            else df.filter (fun r => status_filter.contains r.status)
  let d2 := if substrate_filter.isEmpty then d1
            else d1.filter (fun r => substrate_filter.contains r.substrate_type)
  let d3 := if search_term.isEmpty then d2
            else d2.filter (fun r =>
              match r.experiment_name with
              | some n => nameContains n search_term
              | none => false)
  match date_range with
  | (some a, some b) =>
      d3.filter (fun r => decide (a ≤ r.inoculation_date) && decide (r.inoculation_date ≤ b))
  | _ => d3

/-- The status stage of `filter_experiments` as a single row predicate
(`True` when the multiselect list is empty). -/
def statusKeep (status_filter : List String) (r : Exp) : Bool :=
  status_filter.isEmpty || status_filter.contains r.status

/-- The substrate stage as a single row predicate. -/
def substrateKeep (substrate_filter : List String) (r : Exp) : Bool :=
  substrate_filter.isEmpty || substrate_filter.contains r.substrate_type

/-- The name-search stage as a single row predicate (`na=False`: an NA
name never matches a non-empty term). -/
def nameKeep (search_term : String) (r : Exp) : Bool :=
  search_term.isEmpty ||
    (match r.experiment_name with
     | some n => nameContains n search_term
     | none => false)

/-- The date-range stage as a single row predicate (`True` unless both
bounds are present). -/
def dateKeep (date_range : Option ℤ × Option ℤ) (r : Exp) : Bool :=
  match date_range with
  | (some a, some b) => decide (a ≤ r.inoculation_date) && decide (r.inoculation_date ≤ b)
  | _ => true

/-- The whole filter specification as one conjoined row predicate. -/
def keepRow (status_filter substrate_filter : List String) (search_term : String)
    (date_range : Option ℤ × Option ℤ) (r : Exp) : Bool :=
  statusKeep status_filter r && substrateKeep substrate_filter r
    && nameKeep search_term r && dateKeep date_range r

/-- Ascending insertion into a sorted duplicate-free list of dates
(model of the sorted unique key index `pandas.groupby` produces). -/
def insertKey (x : ℤ) : List ℤ → List ℤ
  | [] => [x]
  | y :: ys => if x < y then x :: y :: ys
               else if x = y then y :: ys
               else y :: insertKey x ys

/-- The sorted duplicate-free list of the inoculation dates of the
records: the group keys of `groupby('inoculation_date_dt')`. -/
def dateKeys (rows : List Exp) : List ℤ :=
  (rows.map (fun r => r.inoculation_date)).foldr insertKey []

/-- Pairs each group key with the running sum of the per-key group
sizes, starting from `acc` (`.size()` per key followed by
`.cumsum()`). -/
def cumulFrom (rows : List Exp) (acc : ℕ) : List ℤ → List (ℤ × ℕ)
  | [] => []
  | k :: ks =>
      let c := acc + rows.countP (fun r => r.inoculation_date == k)
      (k, c) :: cumulFrom rows c ks

/-- Embedding of the Chart 4 timeline computation of
`src/pages/3_📈_Analytics.py`: group the records by
`inoculation_date`, sort the group keys ascending (as `groupby` does),
take each group's size and accumulate with `cumsum`. -/
def cumulative_timeline (rows : List Exp) : List (ℤ × ℕ) :=
  cumulFrom rows 0 (dateKeys rows)

/-- Lexicographic strict order on character lists (string order). -/
def ltChars : List Char → List Char → Bool
  | [], [] => false
  | [], _ :: _ => true
  | _ :: _, [] => false
  | a :: as, b :: bs => decide (a < b) || (a == b && ltChars as bs)

/-- Ascending insertion into a sorted duplicate-free list of strings. -/
def insertKeyStr (x : String) : List String → List String
  | [] => [x]
  | y :: ys => if ltChars x.data y.data then x :: y :: ys
               else if x = y then y :: ys
               else y :: insertKeyStr x ys

/-- The sorted unique substrate keys of `groupby('substrate_type')`. -/
def substrateKeysOf (rows : List Exp) : List String :=
  (rows.map (fun r => r.substrate_type)).foldr insertKeyStr []

/-- Embedding of the per-substrate success-rate table of
`src/pages/3_📈_Analytics.py` (`detailed_stats` / `success_data`):
for each substrate, `successful / total * 100` rounded to one decimal,
where `successful` counts rows with `status != 'contaminated'`.  Rates
are in tenths of a percent. -/
def success_rate_table (rows : List Exp) : List (String × ℤ) :=
  (substrateKeysOf rows).map (fun s =>
    let grp := rows.filter (fun r => r.substrate_type == s)
    (s, pyRound1Tenths ((grp.countP (fun r => !(r.status == "contaminated")) : ℤ) * 100)
          (grp.length : ℤ)))

/-- Days from inoculation to colonization of one record
(`calculate_days_to_colonization`), when the colonization date is
set. -/
def daysToColonization (r : Exp) : Option ℤ :=
  match r.colonization_date with
  | some c => some (c - r.inoculation_date)
  | none => none

/-- Embedding of the per-substrate average-days-to-colonization table of
`src/pages/3_📈_Analytics.py`: over the rows with a colonization date,
group by substrate and round the group mean to one decimal (result in
tenths of a day). -/
def avg_colonization_table (rows : List Exp) : List (String × ℤ) :=
  let wc := rows.filter (fun r => r.colonization_date.isSome)
  (substrateKeysOf wc).map (fun s =>
    let grp := wc.filter (fun r => r.substrate_type == s)
    let days := grp.map (fun r => (daysToColonization r).getD 0)
    (s, pyRound1Tenths days.sum (days.length : ℤ)))

/-- Concrete record with a name (witness data). -/
def expA : Exp := ⟨1, some "Oyster A", "straw", "colonizing", 19723, none, 5⟩

/-- Concrete record whose `experiment_name` cell is NA (witness data). -/
def expB : Exp := ⟨2, none, "cardboard", "done", 19723, some 19733, 4⟩

/-- Concrete contaminated record (witness data). -/
def expC : Exp := ⟨3, some "Lions Mane", "straw", "contaminated", 19725, none, 3⟩

/-- A field mapping containing all four required fields (witness data). -/
def fieldsOk : List (String × PyVal) :=
  [("experiment_name", PyVal.s "Oyster A"), ("substrate_type", PyVal.s "straw"),
   ("inoculation_date", PyVal.s "2024-01-01"), ("status", PyVal.s "colonizing"),
   ("spawn_ratio", PyVal.q 10)]

/-- A field mapping missing `inoculation_date` and `status` (witness
data). -/
def fieldsMissing : List (String × PyVal) :=
  [("experiment_name", PyVal.s "X"), ("substrate_type", PyVal.s "mix")]

/-- A small database state with one done, one contaminated and one
active row (witness data). -/
def dbSmall : Db :=
  ⟨[⟨1, 0, [("status", PyVal.s "done")]⟩,
    ⟨2, 1, [("status", PyVal.s "contaminated")]⟩,
    ⟨3, 2, [("status", PyVal.s "fruiting")]⟩], 4, 3⟩

/-- A database of 16 rows of which 15 are contaminated, so the exact
success rate is 100/16 = 6.25%, halfway between 6.2 and 6.3 (witness
data for the rounding behaviour). -/
def db16 : Db :=
  ⟨(List.range 15).map (fun k => ⟨(k : ℤ) + 1, k, [("status", PyVal.s "contaminated")]⟩)
     ++ [⟨16, 15, [("status", PyVal.s "done")]⟩], 17, 16⟩

/-- Sixteen records on one substrate, 15 contaminated, for the
per-substrate success-rate table at the 6.25% halfway point (witness
data). -/
def exps16 : List Exp :=
  (List.range 15).map (fun k => ⟨k + 1, some "c", "cardboard", "contaminated", 19723, none, k⟩)
    ++ [⟨16, some "d", "cardboard", "done", 19723, none, 15⟩]

/-- Four records on one substrate with days-to-colonization 6, 6, 6, 7,
so the exact mean is 6.25 days, halfway between 6.2 and 6.3 (witness
data). -/
def expsAvg : List Exp :=
  [⟨1, some "a", "straw", "done", 19723, some 19729, 0⟩,
   ⟨2, some "b", "straw", "done", 19723, some 19729, 1⟩,
   ⟨3, some "c", "straw", "done", 19723, some 19729, 2⟩,
   ⟨4, some "d", "straw", "done", 19723, some 19730, 3⟩]

theorem pyRound1Tenths_nonneg (num den : ℤ) (hn : 0 ≤ num) (hd : 0 < den) :
    0 ≤ pyRound1Tenths num den := by
  have hq : 0 ≤ (10 * num) / den := Int.ediv_nonneg (by omega) (le_of_lt hd)
  simp only [pyRound1Tenths]
  split
  · exact hq
  · split
    · omega
    · split <;> omega

/-- Claim C2 (counterexample): at total = 16, contaminated = 15 the
exact success rate is 6.25%, exactly halfway between 6.2 and 6.3; the
code reports 6.2 (62 tenths), not the farther-from-zero 6.3 (63 tenths)
that "round half away from zero" would give. -/
theorem round_half_away_counterexample :
    calculate_success_rate 16 15 = 62
  ∧ specRoundHalfAwayFromZero1Tenths ((16 - 15) * 100) 16 = 63
  ∧ calculate_success_rate 16 15 ≠ specRoundHalfAwayFromZero1Tenths ((16 - 15) * 100) 16 := by
  decide

/-- Claim C2 (amended): the reported percentages and averages are
rounded to 1 decimal place, but not half away from zero: at the exact
halfway success rate 6.25% (total 16, contaminated 15 — an input whose
floating-point computation is exact, so the exact-rational model is
faithful to the program there) the code reports 6.2, the neighbour
NEARER to zero, where half-away-from-zero would give 6.3; the same
6.25 → 6.2 rounding shows on every reporting surface: the stats
success rate, `calculate_success_rate`, biological efficiency, the
per-substrate success-rate table and the per-substrate average-days
table. -/
theorem reported_rounding_not_half_away_from_zero :
    calculate_success_rate 16 15 = 62
  ∧ (get_stats db16).success_rate = 62
  ∧ calculate_biological_efficiency 125 2 = some 62
  ∧ success_rate_table exps16 = [("cardboard", 62)]
  ∧ avg_colonization_table expsAvg = [("straw", 62)]
  ∧ specRoundHalfAwayFromZero1Tenths ((16 - 15) * 100) 16 = 63 := by
  decide

/-- Claim C7: biological efficiency returns the exact value of
`(harvest / (substrate * 1000)) * 100` rounded to one decimal when
`substrate > 0` and `harvest ≥ 0`, returns the unknown marker when
`substrate ≤ 0` or `harvest < 0` (so it never divides by zero), never
returns a negative value, and in particular maps (1500, 1.0) to 150.0
and (500, 0) to the unknown marker. -/
theorem biological_efficiency_claim :
    (∀ hw sw : ℚ, sw ≤ 0 ∨ hw < 0 → calculate_biological_efficiency hw sw = none)
  ∧ (∀ hw sw : ℚ, 0 < sw → 0 ≤ hw →
      calculate_biological_efficiency hw sw
        = some (pyRound1Tenths (hw.num * (sw.den : ℤ) * 100) ((hw.den : ℤ) * sw.num * 1000)))
  ∧ (∀ (hw sw : ℚ) (v : ℤ), calculate_biological_efficiency hw sw = some v → 0 ≤ v)
  ∧ calculate_biological_efficiency 1500 1 = some 1500
  ∧ calculate_biological_efficiency 500 0 = none := by
  refine ⟨?_, ?_, ?_, by decide, by decide⟩
  · intro hw sw hcase
    simp only [calculate_biological_efficiency]
    exact if_pos hcase
  · intro hw sw hs hh
    have hno : ¬ (sw ≤ 0 ∨ hw < 0) := by
      rintro (hle | hlt)
      · exact absurd hs (not_lt.mpr hle)
      · exact absurd hh (not_le.mpr hlt)
    simp only [calculate_biological_efficiency]
    exact if_neg hno
  · intro hw sw v hv
    simp only [calculate_biological_efficiency] at hv
    by_cases hc : sw ≤ 0 ∨ hw < 0
    · rw [if_pos hc] at hv
      exact absurd hv (by simp)
    · rw [if_neg hc] at hv
      have hs : 0 < sw := lt_of_not_le (fun hle => hc (Or.inl hle))
      have hh : 0 ≤ hw := le_of_not_lt (fun hlt => hc (Or.inr hlt))
      have h1 : (0 : ℤ) < (hw.den : ℤ) := by exact_mod_cast hw.den_pos
      have h2 : 0 < sw.num := Rat.num_pos.mpr hs
      have h3 : 0 ≤ hw.num := Rat.num_nonneg.mpr hh
      have h4 : (0 : ℤ) ≤ (sw.den : ℤ) := by positivity
      have hnum : 0 ≤ hw.num * (sw.den : ℤ) * 100 := by positivity
      have hden : 0 < (hw.den : ℤ) * sw.num * 1000 := by positivity
      have hx := pyRound1Tenths_nonneg _ _ hnum hden
      have hveq : pyRound1Tenths (hw.num * (sw.den : ℤ) * 100) ((hw.den : ℤ) * sw.num * 1000) = v :=
        Option.some.inj hv
      omega

/-- Witness for claim C7 at the concrete input (1500 grams, 1.0 kg). -/
theorem biological_efficiency_claim_witness :
    (0 : ℚ) < 1 ∧ (0 : ℚ) ≤ 1500
  ∧ calculate_biological_efficiency 1500 1
      = some (pyRound1Tenths ((1500 : ℚ).num * (((1 : ℚ).den : ℤ)) * 100)
          ((((1500 : ℚ).den : ℤ)) * (1 : ℚ).num * 1000)) :=
  ⟨by decide, by decide, biological_efficiency_claim.2.1 1500 1 (by decide) (by decide)⟩

theorem count_status_partition (rows : List DbRow)
    (hs : ∀ r ∈ rows, (rowStatus r).isSome) :
    rows.countP isActiveRow + rows.countP isDoneRow + rows.countP isContaminatedRow
      = rows.length := by
  induction rows with
  | nil => simp
  | cons r rest ih =>
    have hr : (rowStatus r).isSome := hs r (by simp)
    have hrest : ∀ x ∈ rest, (rowStatus x).isSome := fun x hx => hs x (by simp [hx])
    obtain ⟨v, hv⟩ := Option.isSome_iff_exists.mp hr
    have ih' := ih hrest
    rw [List.countP_cons, List.countP_cons, List.countP_cons, List.length_cons]
    by_cases hd : v = "done"
    · have e1 : isActiveRow r = false := by simp [isActiveRow, hv, hd]
      have e2 : isDoneRow r = true := by simp [isDoneRow, hv, hd]
      have e3 : isContaminatedRow r = false := by simp [isContaminatedRow, hv, hd]
      simp [e1, e2, e3]
      omega
    · by_cases hc : v = "contaminated"
      · have e1 : isActiveRow r = false := by simp [isActiveRow, hv, hc]
        have e2 : isDoneRow r = false := by simp [isDoneRow, hv, hc]
        have e3 : isContaminatedRow r = true := by simp [isContaminatedRow, hv, hc]
        simp [e1, e2, e3]
        omega
      · have e1 : isActiveRow r = true := by simp [isActiveRow, hv, hd, hc]
        have e2 : isDoneRow r = false := by simp [isDoneRow, hv, hd]
        have e3 : isContaminatedRow r = false := by simp [isContaminatedRow, hv, hc]
        simp [e1, e2, e3]
        omega

/-- Claim C1: for every database state (whose rows carry the NOT NULL
text `status` the schema requires), `get_stats` satisfies
`active_count + done_count + contaminated_count = total_count` (with
`done_count` the number of rows whose status is `'done'`), and
`success_rate` is `(total - contaminated) / total * 100` rounded to one
decimal when `total > 0` and `0.0` when `total = 0`. -/
theorem get_stats_claim (db : Db) (hs : ∀ r ∈ db.rows, (rowStatus r).isSome) :
    (get_stats db).active_count + db.rows.countP isDoneRow + (get_stats db).contaminated_count
      = (get_stats db).total_count
  ∧ (0 < (get_stats db).total_count →
      (get_stats db).success_rate
        = pyRound1Tenths ((((get_stats db).total_count : ℤ)
            - ((get_stats db).contaminated_count : ℤ)) * 100)
            ((get_stats db).total_count : ℤ))
  ∧ ((get_stats db).total_count = 0 → (get_stats db).success_rate = 0) := by
  refine ⟨?_, ?_, ?_⟩
  · simpa [get_stats] using count_status_partition db.rows hs
  · intro hpos
    simp only [get_stats] at hpos ⊢
    rw [if_pos hpos]
  · intro hzero
    simp only [get_stats] at hzero ⊢
    rw [if_neg (by omega)]

/-- Witness for claim C1 on a concrete three-row database. -/
theorem get_stats_claim_witness :
    (∀ r ∈ dbSmall.rows, (rowStatus r).isSome)
  ∧ (get_stats dbSmall).active_count + dbSmall.rows.countP isDoneRow
      + (get_stats dbSmall).contaminated_count = (get_stats dbSmall).total_count :=
  ⟨by decide, (get_stats_claim dbSmall (by decide)).1⟩

/-- Claim C3: a create call whose field mapping omits a required field
fails with the validation error naming the missing field, the error is
surfaced to the caller unmodified, and the database state is unchanged
— no row is inserted. -/
theorem add_experiment_missing_required (f : List (String × PyVal)) (db : Db)
    (hmiss : ∃ fld ∈ requiredFields, lookupField fld f = none) :
    ∃ fld ∈ requiredFields, lookupField fld f = none
      ∧ add_experiment f db = (Except.error ("Missing required field: " ++ fld), db) := by
  have hex : (requiredFields.find? (fun fld => (lookupField fld f).isNone)).isSome := by
    obtain ⟨fld, hmem, hnone⟩ := hmiss
    exact List.find?_isSome.mpr ⟨fld, hmem, by simp [hnone]⟩
  obtain ⟨fld0, hfind⟩ := Option.isSome_iff_exists.mp hex
  refine ⟨fld0, List.mem_of_find?_eq_some hfind, ?_, ?_⟩
  · have := List.find?_some hfind
    simpa using this
  · simp only [add_experiment, hfind]

/-- Witness for claim C3: creating from a mapping that lacks
`inoculation_date` and `status` fails and leaves the store untouched. -/
theorem add_experiment_missing_required_witness :
    (∃ fld ∈ requiredFields, lookupField fld fieldsMissing = none)
  ∧ ∃ fld ∈ requiredFields, lookupField fld fieldsMissing = none
      ∧ add_experiment fieldsMissing initDb
          = (Except.error ("Missing required field: " ++ fld), initDb) :=
  ⟨by decide, add_experiment_missing_required fieldsMissing initDb (by decide)⟩

/-- Claim C8: `calculate_days_elapsed` never raises.  On a parseable
date string (or a `date`/`datetime` value) it returns the day count to
the reference date; on an absent (`None`), unparseable, or non-date
input it returns the explicit unknown marker `none` — the `ValueError`
that `strptime` raises inside the body is caught and converted, never
propagated. -/
theorem days_elapsed_claim (e : Option ℤ) (t : ℤ) :
    (∀ s d, parseDateStr s = some d →
        calculate_days_elapsed (PyDateVal.str s) e t = some (e.getD t - d))
  ∧ (∀ s, parseDateStr s = none →
        days_elapsed_body (PyDateVal.str s) e t = Except.error "ValueError"
      ∧ calculate_days_elapsed (PyDateVal.str s) e t = none)
  ∧ (∀ d, calculate_days_elapsed (PyDateVal.pydate d) e t = some (e.getD t - d))
  ∧ (∀ d, calculate_days_elapsed (PyDateVal.pydatetime d) e t = some (e.getD t - d))
  ∧ calculate_days_elapsed PyDateVal.none_ e t = none
  ∧ calculate_days_elapsed PyDateVal.other e t = none := by
  refine ⟨?_, ?_, fun d => rfl, fun d => rfl, rfl, rfl⟩
  · intro s d hp
    simp [calculate_days_elapsed, days_elapsed_body, hp]
  · intro s hp
    constructor <;> simp [calculate_days_elapsed, days_elapsed_body, hp]

/-- Witness for claim C8 on the concrete date string "2024-01-03" with
reference ordinal 19735 (2024-01-13): ten days elapsed. -/
theorem days_elapsed_claim_witness :
    parseDateStr "2024-01-03" = some 19725
  ∧ calculate_days_elapsed (PyDateVal.str "2024-01-03") none 19735
      = some ((none : Option ℤ).getD 19735 - 19725) :=
  ⟨by decide, (days_elapsed_claim none 19735).1 "2024-01-03" 19725 (by decide)⟩

theorem empty_string_isEmpty : "".isEmpty = true := rfl

theorem filter_merge {α : Type} (l : List α) (p q : α → Bool) :
    (l.filter p).filter q = l.filter (fun r => p r && q r) := by
  rw [List.filter_filter]
  apply List.filter_congr
  intro r _
  cases p r <;> cases q r <;> rfl

theorem filter_experiments_eq_filter (df : List Exp) (sf uf : List String) (t : String)
    (dr : Option ℤ × Option ℤ) :
    filter_experiments df sf uf t dr = df.filter (keepRow sf uf t dr) := by
  obtain ⟨a, b⟩ := dr
  have h3 : (let d1 := if sf.isEmpty then df else df.filter (fun r => sf.contains r.status)
             let d2 := if uf.isEmpty then d1 else d1.filter (fun r => uf.contains r.substrate_type)
             if t.isEmpty then d2 else d2.filter (fun r =>
               match r.experiment_name with
               | some n => nameContains n t
               | none => false))
      = df.filter (fun r => statusKeep sf r && substrateKeep uf r && nameKeep t r) := by
    cases hsf : sf.isEmpty <;> cases huf : uf.isEmpty <;> cases ht : t.isEmpty <;>
      simp [hsf, huf, ht, filter_merge, statusKeep, substrateKeep, nameKeep] <;>
      (apply List.filter_congr
       intro r _
       cases h1 : decide (r.status ∈ sf) <;> cases h2 : decide (r.substrate_type ∈ uf) <;>
         cases hm : (match r.experiment_name with
           | some n => nameContains n t
           | none => false) <;>
         simp [h1, h2, hm])
  cases a <;> cases b
  · simp only [filter_experiments]
    rw [h3]
    apply List.filter_congr
    intro r _
    simp [keepRow, dateKeep]
  · simp only [filter_experiments]
    rw [h3]
    apply List.filter_congr
    intro r _
    simp [keepRow, dateKeep]
  · simp only [filter_experiments]
    rw [h3]
    apply List.filter_congr
    intro r _
    simp [keepRow, dateKeep]
  · simp only [filter_experiments]
    rw [h3]
    rw [filter_merge]
    apply List.filter_congr
    intro r _
    simp [keepRow, dateKeep]

/-- Claim C5: an empty status multiselect keeps all records (it is the
same as selecting every status present), likewise an empty substrate
multiselect and an absent/empty search term; a date range with either
bound absent applies no date filtering; and with both bounds present
exactly the records whose inoculation date lies inclusively between the
bounds are kept. -/
theorem filter_empty_and_range_claim (df : List Exp) :
    filter_experiments df [] [] "" (none, none) = df
  ∧ (∀ a : ℤ, filter_experiments df [] [] "" (some a, none) = df)
  ∧ (∀ b : ℤ, filter_experiments df [] [] "" (none, some b) = df)
  ∧ (∀ (sf uf : List String) (t : String) (a : ℤ),
      filter_experiments df sf uf t (some a, none) = filter_experiments df sf uf t (none, none))
  ∧ (∀ (sf uf : List String) (t : String) (b : ℤ),
      filter_experiments df sf uf t (none, some b) = filter_experiments df sf uf t (none, none))
  ∧ (∀ (uf : List String) (t : String) (dr : Option ℤ × Option ℤ),
      filter_experiments df [] uf t dr
        = filter_experiments df (df.map (fun r => r.status)) uf t dr)
  ∧ (∀ (sf : List String) (t : String) (dr : Option ℤ × Option ℤ),
      filter_experiments df sf [] t dr
        = filter_experiments df sf (df.map (fun r => r.substrate_type)) t dr)
  ∧ (∀ a b : ℤ, filter_experiments df [] [] "" (some a, some b)
        = df.filter (fun r => decide (a ≤ r.inoculation_date) && decide (r.inoculation_date ≤ b))) := by
  refine ⟨?_, ?_, ?_, ?_, ?_, ?_, ?_, ?_⟩
  · rw [filter_experiments_eq_filter]
    simp [keepRow, statusKeep, substrateKeep, nameKeep, dateKeep, empty_string_isEmpty]
  · intro a
    rw [filter_experiments_eq_filter]
    simp [keepRow, statusKeep, substrateKeep, nameKeep, dateKeep, empty_string_isEmpty]
  · intro b
    rw [filter_experiments_eq_filter]
    simp [keepRow, statusKeep, substrateKeep, nameKeep, dateKeep, empty_string_isEmpty]
  · intro sf uf t a
    rw [filter_experiments_eq_filter, filter_experiments_eq_filter]
    apply List.filter_congr
    intro r _
    simp [keepRow, dateKeep]
  · intro sf uf t b
    rw [filter_experiments_eq_filter, filter_experiments_eq_filter]
    apply List.filter_congr
    intro r _
    simp [keepRow, dateKeep]
  · intro uf t dr
    rw [filter_experiments_eq_filter, filter_experiments_eq_filter]
    apply List.filter_congr
    intro r hr
    have hmem : r.status ∈ df.map (fun r => r.status) := List.mem_map_of_mem _ hr
    simp [keepRow, statusKeep, hmem]
  · intro sf t dr
    rw [filter_experiments_eq_filter, filter_experiments_eq_filter]
    apply List.filter_congr
    intro r hr
    have hmem : r.substrate_type ∈ df.map (fun r => r.substrate_type) :=
      List.mem_map_of_mem _ hr
    simp [keepRow, substrateKeep, hmem]
  · intro a b
    rw [filter_experiments_eq_filter]
    apply List.filter_congr
    intro r _
    simp [keepRow, statusKeep, substrateKeep, nameKeep, dateKeep, empty_string_isEmpty]

/-- Claim C6: filtering is idempotent (filtering twice with the same
specification equals filtering once), the status and substrate
predicates commute (status then substrate equals substrate then
status), and the output is a sublist of the input, so the input's
created-at-descending ordering is preserved. -/
theorem filter_idempotent_commutative_order_claim (df : List Exp) (sf uf : List String)
    (t : String) (dr : Option ℤ × Option ℤ) :
    filter_experiments (filter_experiments df sf uf t dr) sf uf t dr
        = filter_experiments df sf uf t dr
  ∧ filter_experiments (filter_experiments df sf [] "" (none, none)) [] uf "" (none, none)
        = filter_experiments (filter_experiments df [] uf "" (none, none)) sf [] "" (none, none)
  ∧ (filter_experiments df sf uf t dr).Sublist df := by
  refine ⟨?_, ?_, ?_⟩
  · rw [filter_experiments_eq_filter, filter_experiments_eq_filter, filter_merge]
    apply List.filter_congr
    intro r _
    cases keepRow sf uf t dr r <;> rfl
  · rw [filter_experiments_eq_filter df, filter_experiments_eq_filter df,
      filter_experiments_eq_filter, filter_experiments_eq_filter, filter_merge, filter_merge]
    apply List.filter_congr
    intro r _
    cases h1 : keepRow sf [] "" (none, none) r <;> cases h2 : keepRow [] uf "" (none, none) r <;>
      simp [h1, h2]
  · rw [filter_experiments_eq_filter]
    exact List.filter_sublist df

/-- Claim C10: with a non-empty search term every record whose
experiment name is missing (NA) is excluded from the result rather than
matching or raising; with an empty search term such records pass
through unchanged. -/
theorem name_search_missing_names_claim (df : List Exp) (t : String) (r : Exp) :
    (t.isEmpty = false → r ∈ filter_experiments df [] [] t (none, none) →
        r.experiment_name ≠ none)
  ∧ filter_experiments df [] [] "" (none, none) = df := by
  constructor
  · intro ht hr hname
    rw [filter_experiments_eq_filter] at hr
    have hk := (List.mem_filter.mp hr).2
    simp [keepRow, nameKeep, ht, hname] at hk
  · rw [filter_experiments_eq_filter]
    simp [keepRow, statusKeep, substrateKeep, nameKeep, dateKeep, empty_string_isEmpty]

/-- Witness for claim C10: with the term "oyster", the named record is
kept — and satisfies the conclusion — while the NA-named record (also
present in the input) is droppable only via this exclusion. -/
theorem name_search_missing_names_claim_witness :
    ("oyster".isEmpty = false)
  ∧ expA ∈ filter_experiments [expB, expA] [] [] "oyster" (none, none)
  ∧ expA.experiment_name ≠ none :=
  ⟨by decide, by decide,
   (name_search_missing_names_claim [expB, expA] "oyster" expA).1 (by decide) (by decide)⟩
theorem mem_insertKey (x y : ℤ) (l : List ℤ) : y ∈ insertKey x l ↔ y = x ∨ y ∈ l := by
  induction l with
  | nil => simp [insertKey]
  | cons z zs ih =>
    by_cases h1 : x < z
    · simp [insertKey, h1, List.mem_cons]
    · by_cases h2 : x = z
      · subst h2
        have he : insertKey x (x :: zs) = x :: zs := by
          rw [insertKey, if_neg h1, if_pos rfl]
        rw [he]
        simp only [List.mem_cons]
        tauto
      · simp only [insertKey, if_neg h1, if_neg h2, List.mem_cons, ih]
        tauto

theorem insertKey_pairwise (x : ℤ) (l : List ℤ) (h : l.Pairwise (· < ·)) :
    (insertKey x l).Pairwise (· < ·) := by
  induction l with
  | nil => simp [insertKey]
  | cons z zs ih =>
    obtain ⟨hz, hzs⟩ := List.pairwise_cons.mp h
    by_cases h1 : x < z
    · rw [insertKey, if_pos h1]
      refine List.pairwise_cons.mpr ⟨?_, h⟩
      intro y hy
      rcases List.mem_cons.mp hy with rfl | hmem
      · exact h1
      · exact lt_trans h1 (hz y hmem)
    · by_cases h2 : x = z
      · rw [insertKey, if_neg h1, if_pos h2]
        exact h
      · rw [insertKey, if_neg h1, if_neg h2]
        refine List.pairwise_cons.mpr ⟨?_, ih hzs⟩
        intro y hy
        rcases (mem_insertKey x y zs).mp hy with rfl | hmem
        · omega
        · exact hz y hmem

theorem foldr_insertKey_mem (l : List ℤ) (y : ℤ) :
    y ∈ l.foldr insertKey [] ↔ y ∈ l := by
  induction l with
  | nil => simp
  | cons z zs ih => simp [List.foldr_cons, mem_insertKey, ih]

theorem foldr_insertKey_pairwise (l : List ℤ) : (l.foldr insertKey []).Pairwise (· < ·) := by
  induction l with
  | nil => simp
  | cons z zs ih => exact insertKey_pairwise z _ ih

theorem countP_or_disjoint {α : Type} (l : List α) (p q : α → Bool)
    (h : ∀ a ∈ l, ¬(p a = true ∧ q a = true)) :
    l.countP (fun a => p a || q a) = l.countP p + l.countP q := by
  induction l with
  | nil => simp
  | cons a as ih =>
    have ha := h a (by simp)
    have has : ∀ x ∈ as, ¬(p x = true ∧ q x = true) := fun x hx => h x (by simp [hx])
    rw [List.countP_cons, List.countP_cons, List.countP_cons, ih has]
    cases hp : p a <;> cases hq : q a
    · simp [hp, hq]
    · simp [hp, hq]
      omega
    · simp [hp, hq]
      omega
    · exact absurd ⟨hp, hq⟩ ha

theorem cumulFrom_eq (rows : List Exp) (keys : List ℤ) (acc : ℕ)
    (hp : keys.Pairwise (· < ·)) :
    cumulFrom rows acc keys
      = keys.map (fun k => (k, acc + rows.countP
          (fun r => decide (r.inoculation_date ∈ keys) && decide (r.inoculation_date ≤ k)))) := by
  induction keys generalizing acc with
  | nil => rfl
  | cons k ks ih =>
    obtain ⟨hk, hks⟩ := List.pairwise_cons.mp hp
    have hknot : k ∉ ks := fun hmem => lt_irrefl k (hk k hmem)
    have hhead : rows.countP (fun r => r.inoculation_date == k)
        = rows.countP (fun r =>
            decide (r.inoculation_date ∈ k :: ks) && decide (r.inoculation_date ≤ k)) := by
      apply List.countP_congr
      intro r _
      simp only [beq_iff_eq, Bool.and_eq_true, decide_eq_true_eq, List.mem_cons]
      constructor
      · rintro rfl
        exact ⟨Or.inl rfl, le_refl _⟩
      · rintro ⟨h | hmem, hle⟩
        · exact h
        · exact absurd (hk _ hmem) (not_lt.mpr hle)
    have hsplit : ∀ k' : ℤ, k < k' →
        rows.countP (fun r =>
            decide (r.inoculation_date ∈ k :: ks) && decide (r.inoculation_date ≤ k'))
          = rows.countP (fun r => r.inoculation_date == k)
            + rows.countP (fun r =>
                decide (r.inoculation_date ∈ ks) && decide (r.inoculation_date ≤ k')) := by
      intro k' hkk'
      have hcongr : rows.countP (fun r =>
            decide (r.inoculation_date ∈ k :: ks) && decide (r.inoculation_date ≤ k'))
          = rows.countP (fun r => (r.inoculation_date == k)
              || (decide (r.inoculation_date ∈ ks) && decide (r.inoculation_date ≤ k'))) := by
        apply List.countP_congr
        intro r _
        simp only [Bool.and_eq_true, Bool.or_eq_true, beq_iff_eq, decide_eq_true_eq,
          List.mem_cons]
        constructor
        · rintro ⟨h | hmem, hle⟩
          · exact Or.inl h
          · exact Or.inr ⟨hmem, hle⟩
        · rintro (h | ⟨hmem, hle⟩)
          · exact ⟨Or.inl h, by omega⟩
          · exact ⟨Or.inr hmem, hle⟩
      rw [hcongr]
      apply countP_or_disjoint
      intro r _
      rintro ⟨hpk, hq⟩
      simp only [beq_iff_eq] at hpk
      simp only [Bool.and_eq_true, decide_eq_true_eq] at hq
      exact hknot (hpk ▸ hq.1)
    simp only [cumulFrom]
    rw [ih _ hks]
    congr 1
    · rw [hhead]
    · apply List.map_congr_left
      intro k' hk'
      have hkk' : k < k' := hk k' hk'
      simp only [Prod.mk.injEq, true_and]
      rw [hsplit k' hkk']
      omega

theorem cumulative_timeline_spec (rows : List Exp) :
    cumulative_timeline rows
      = (dateKeys rows).map (fun d =>
          (d, rows.countP (fun r => decide (r.inoculation_date ≤ d)))) := by
  have hpw : (dateKeys rows).Pairwise (· < ·) := foldr_insertKey_pairwise _
  rw [cumulative_timeline, cumulFrom_eq rows _ 0 hpw]
  apply List.map_congr_left
  intro k hk
  simp only [Prod.mk.injEq, true_and, Nat.zero_add]
  apply List.countP_congr
  intro r hr
  have hmem : r.inoculation_date ∈ dateKeys rows := by
    rw [dateKeys, foldr_insertKey_mem]
    exact List.mem_map_of_mem _ hr
  simp [hmem]

/-- Claim C9: `cumulative_timeline` groups records by inoculation date,
sorts the group keys strictly ascending (the key list is exactly the set
of dates present), and pairs each date with the running total — the
number of records inoculated on or before that date; in particular three
records dated 2024-01-01, 2024-01-01, 2024-01-03 yield
[(2024-01-01, 2), (2024-01-03, 3)]. -/
theorem cumulative_timeline_claim :
    (∀ rows : List Exp,
        cumulative_timeline rows
          = (dateKeys rows).map (fun d =>
              (d, rows.countP (fun r => decide (r.inoculation_date ≤ d))))
      ∧ (dateKeys rows).Pairwise (· < ·)
      ∧ (∀ d : ℤ, d ∈ dateKeys rows ↔ d ∈ rows.map (fun r => r.inoculation_date)))
  ∧ cumulative_timeline [expA, expB, expC]
      = [(daysFromCivil 2024 1 1, 2), (daysFromCivil 2024 1 3, 3)] := by
  refine ⟨fun rows => ⟨cumulative_timeline_spec rows, foldr_insertKey_pairwise _, ?_⟩, by decide⟩
  intro d
  exact foldr_insertKey_mem _ d

theorem add_experiment_spec (f : List (String × PyVal)) (db : Db) :
    ((add_experiment f db).2 = db ∧ ∃ e, (add_experiment f db).1 = Except.error e)
  ∨ ∃ i : ℤ, (add_experiment f db).1 = Except.ok i
      ∧ (add_experiment f db).2.rows = db.rows ++ [⟨i, db.clock, f⟩]
      ∧ db.nextId ≤ (add_experiment f db).2.nextId
      ∧ i < (add_experiment f db).2.nextId := by
  rcases hfind : requiredFields.find? (fun fld => (lookupField fld f).isNone) with _ | fld
  · by_cases hunk : (f.any (fun kv => !(schemaColumns.contains kv.1))) = true
    · have heq : add_experiment f db = (Except.error "OperationalError: no such column", db) := by
        simp only [add_experiment, hfind]
        rw [if_pos hunk]
      exact Or.inl ⟨by rw [heq], _, by rw [heq]⟩
    · by_cases hnl : (notNullColumns.any (fun c => lookupField c f == some PyVal.none_)) = true
      · have heq : add_experiment f db
            = (Except.error "IntegrityError: NOT NULL constraint failed", db) := by
          simp only [add_experiment, hfind]
          rw [if_neg hunk, if_pos hnl]
        exact Or.inl ⟨by rw [heq], _, by rw [heq]⟩
      · rcases hid : lookupField "id" f with _ | v
        · have heq : add_experiment f db = (Except.ok db.nextId,
              ⟨db.rows ++ [⟨db.nextId, db.clock, f⟩], db.nextId + 1, db.clock + 1⟩) := by
            simp only [add_experiment, hfind]
            rw [if_neg hunk, if_neg hnl]
            simp only [hid]
          refine Or.inr ⟨db.nextId, by rw [heq], by rw [heq], ?_, ?_⟩
          · rw [heq]
            show db.nextId ≤ db.nextId + 1
            omega
          · rw [heq]
            show db.nextId < db.nextId + 1
            omega
        · rcases hrv : pyValAsRowid v with _ | oi
          · have heq : add_experiment f db
                = (Except.error "IntegrityError: datatype mismatch", db) := by
              simp only [add_experiment, hfind]
              rw [if_neg hunk, if_neg hnl]
              simp only [hid, hrv]
            exact Or.inl ⟨by rw [heq], _, by rw [heq]⟩
          · rcases oi with _ | i
            · have heq : add_experiment f db = (Except.ok db.nextId,
                  ⟨db.rows ++ [⟨db.nextId, db.clock, f⟩], db.nextId + 1, db.clock + 1⟩) := by
                simp only [add_experiment, hfind]
                rw [if_neg hunk, if_neg hnl]
                simp only [hid, hrv]
              refine Or.inr ⟨db.nextId, by rw [heq], by rw [heq], ?_, ?_⟩
              · rw [heq]
                show db.nextId ≤ db.nextId + 1
                omega
              · rw [heq]
                show db.nextId < db.nextId + 1
                omega
            · by_cases hdup : (db.rows.any (fun r => r.id == i)) = true
              · have heq : add_experiment f db
                    = (Except.error "IntegrityError: UNIQUE constraint failed", db) := by
                  simp only [add_experiment, hfind]
                  rw [if_neg hunk, if_neg hnl]
                  simp only [hid, hrv]
                  rw [if_pos hdup]
                exact Or.inl ⟨by rw [heq], _, by rw [heq]⟩
              · have heq : add_experiment f db = (Except.ok i,
                    ⟨db.rows ++ [⟨i, db.clock, f⟩], max db.nextId (i + 1), db.clock + 1⟩) := by
                  simp only [add_experiment, hfind]
                  rw [if_neg hunk, if_neg hnl]
                  simp only [hid, hrv]
                  rw [if_neg hdup]
                refine Or.inr ⟨i, by rw [heq], by rw [heq], ?_, ?_⟩
                · rw [heq]
                  show db.nextId ≤ max db.nextId (i + 1)
                  exact le_max_left _ _
                · rw [heq]
                  show i < max db.nextId (i + 1)
                  exact lt_of_lt_of_le (lt_add_one i) (le_max_right _ _)
  · have heq : add_experiment f db
        = (Except.error ("Missing required field: " ++ fld), db) := by
      simp only [add_experiment, hfind]
    exact Or.inl ⟨by rw [heq], _, by rw [heq]⟩

theorem applyOp_nextId_le (db : Db) (op : DbOp) : db.nextId ≤ (applyOp db op).1.nextId := by
  cases op with
  | create f =>
    show db.nextId ≤ (add_experiment f db).2.nextId
    rcases add_experiment_spec f db with ⟨h2, _⟩ | ⟨i, _, _, hle, _⟩
    · rw [h2]
    · exact hle
  | del i =>
    show db.nextId ≤ db.nextId
    exact le_refl _

theorem runOps_nextId_le (db : Db) (ops : List DbOp) : db.nextId ≤ (runOps db ops).nextId := by
  induction ops generalizing db with
  | nil => exact le_refl _
  | cons op ops ih => exact le_trans (applyOp_nextId_le db op) (ih _)

theorem returnedIds_lt (db : Db) (ops : List DbOp) :
    ∀ i ∈ returnedIds db ops, i < (runOps db ops).nextId := by
  induction ops generalizing db with
  | nil =>
    intro j h
    cases h
  | cons op ops ih =>
    intro j hj
    rcases List.mem_append.mp hj with h1 | h2
    · have hle : (applyOp db op).1.nextId ≤ (runOps (applyOp db op).1 ops).nextId :=
        runOps_nextId_le _ _
      cases op with
      | create f =>
        rcases add_experiment_spec f db with ⟨_, e, h1e⟩ | ⟨i, hok, _, _, hlt⟩
        · have hnil : (applyOp db (DbOp.create f)).2 = [] := by
            show (match (add_experiment f db).1 with
                  | Except.ok i => [i] | Except.error _ => []) = []
            rw [h1e]
          rw [hnil] at h1
          cases h1
        · have hone : (applyOp db (DbOp.create f)).2 = [i] := by
            show (match (add_experiment f db).1 with
                  | Except.ok i => [i] | Except.error _ => []) = [i]
            rw [hok]
          rw [hone] at h1
          have hji : j = i := List.mem_singleton.mp h1
          subst hji
          show j < (runOps (applyOp db (DbOp.create f)).1 ops).nextId
          exact lt_of_lt_of_le hlt hle
      | del i' =>
        simp [applyOp] at h1
    · exact ih _ j h2

theorem runOps_wf (db : Db) (ops : List DbOp) (h : ∀ r ∈ db.rows, r.id < db.nextId) :
    ∀ r ∈ (runOps db ops).rows, r.id < (runOps db ops).nextId := by
  induction ops generalizing db with
  | nil => exact h
  | cons op ops ih =>
    apply ih
    cases op with
    | create f =>
      intro r hr
      rcases add_experiment_spec f db with ⟨h2, _⟩ | ⟨i, _, hrows, hle, hlt⟩
      · have hr' : r ∈ (add_experiment f db).2.rows := hr
        rw [h2] at hr'
        show r.id < (add_experiment f db).2.nextId
        rw [h2]
        exact h r hr'
      · have hr' : r ∈ (add_experiment f db).2.rows := hr
        rw [hrows] at hr'
        show r.id < (add_experiment f db).2.nextId
        rcases List.mem_append.mp hr' with hold | hnew
        · exact lt_of_lt_of_le (h r hold) hle
        · have hre : r = ⟨i, db.clock, f⟩ := List.mem_singleton.mp hnew
          subst hre
          exact hlt
    | del i' =>
      intro r hr
      have hr' : r ∈ db.rows.filter (fun r => !(r.id == i')) := hr
      show r.id < db.nextId
      exact h r (List.mem_of_mem_filter hr')

theorem lookupField_eq_none (k : String) (f : List (String × PyVal))
    (h : ∀ kv ∈ f, kv.1 ≠ k) : lookupField k f = none := by
  induction f with
  | nil => rfl
  | cons a as ih =>
    obtain ⟨k', v'⟩ := a
    have hne : k ≠ k' := fun he => (h (k', v') (by simp)) (by simp [he])
    simp only [lookupField, if_neg hne]
    exact ih (fun kv hkv => h kv (by simp [hkv]))

theorem lookupField_of_mem (f : List (String × PyVal)) (hnd : (f.map Prod.fst).Nodup)
    (kv : String × PyVal) (hkv : kv ∈ f) : lookupField kv.1 f = some kv.2 := by
  induction f with
  | nil => cases hkv
  | cons a as ih =>
    rw [List.map_cons] at hnd
    obtain ⟨hna, hnd2⟩ := List.nodup_cons.mp hnd
    rcases List.mem_cons.mp hkv with rfl | hmem
    · obtain ⟨k', v'⟩ := kv
      simp [lookupField]
    · have hne : kv.1 ≠ a.1 := by
        intro he
        exact hna (he ▸ List.mem_map_of_mem Prod.fst hmem)
      obtain ⟨k', v'⟩ := a
      simp only [lookupField, if_neg hne]
      exact ih hnd2 hmem

/-- Claim C4: after any history of creates and deletes starting from a
fresh database, creating a record from a valid field mapping — the four
required fields present with non-NULL values, every key a real data
column of the schema (the store assigns `id`, so a valid mapping does
not supply it), keys distinct as Python kwargs are — succeeds with an
id never returned by any previous create, including ids of
since-deleted rows, and reading that id back returns a row agreeing
with the mapping on every supplied field. -/
theorem create_fresh_and_readback (ops : List DbOp) (f : List (String × PyVal))
    (hreq : ∀ fld ∈ requiredFields, (lookupField fld f).isSome)
    (hnn : ∀ fld ∈ requiredFields, lookupField fld f ≠ some PyVal.none_)
    (hcols : ∀ kv ∈ f, kv.1 ∈ schemaColumns ∧ kv.1 ≠ "id")
    (hnd : (f.map Prod.fst).Nodup) :
    ∃ i db', add_experiment f (runOps initDb ops) = (Except.ok i, db')
      ∧ i ∉ returnedIds initDb ops
      ∧ ∃ r, get_experiment_by_id i db' = some r
          ∧ ∀ kv ∈ f, lookupField kv.1 r.fields = some kv.2 := by
  have hfind : requiredFields.find? (fun fld => (lookupField fld f).isNone) = none := by
    rw [List.find?_eq_none]
    intro fld hmem
    have := hreq fld hmem
    revert this
    cases lookupField fld f <;> simp
  have hunk : (f.any (fun kv => !(schemaColumns.contains kv.1))) = false := by
    rw [List.any_eq_false]
    intro kv hkv
    simp [(hcols kv hkv).1]
  have hnl : (notNullColumns.any (fun c => lookupField c f == some PyVal.none_)) = false := by
    rw [List.any_eq_false]
    intro c hc
    have hc' : c ∈ requiredFields := hc
    have hne := hnn c hc'
    simp [hne]
  have hid : lookupField "id" f = none :=
    lookupField_eq_none _ _ (fun kv hkv => (hcols kv hkv).2)
  have hwf : ∀ r ∈ (runOps initDb ops).rows, r.id < (runOps initDb ops).nextId :=
    runOps_wf initDb ops (by intro r hr; cases hr)
  refine ⟨(runOps initDb ops).nextId,
    ⟨(runOps initDb ops).rows ++ [⟨(runOps initDb ops).nextId, (runOps initDb ops).clock, f⟩],
     (runOps initDb ops).nextId + 1, (runOps initDb ops).clock + 1⟩, ?_, ?_, ?_⟩
  · simp only [add_experiment, hfind]
    rw [if_neg (by simp only [hunk]; decide), if_neg (by simp only [hnl]; decide)]
    simp only [hid]
  · intro hmem
    have := returnedIds_lt initDb ops (runOps initDb ops).nextId hmem
    omega
  · refine ⟨⟨(runOps initDb ops).nextId, (runOps initDb ops).clock, f⟩, ?_, ?_⟩
    · have h1 : (runOps initDb ops).rows.find?
          (fun r => r.id == (runOps initDb ops).nextId) = none := by
        rw [List.find?_eq_none]
        intro r hr
        simp only [beq_iff_eq]
        exact ne_of_lt (hwf r hr)
      rw [get_experiment_by_id]
      simp only [List.find?_append, h1, Option.none_or]
      simp [List.find?]
    · intro kv hkv
      exact lookupField_of_mem f hnd kv hkv

/-- Witness for claim C4: a concrete history that creates a row and
deletes it; the next create still gets a fresh id (2, not the freed 1)
and reads back correctly. -/
theorem create_fresh_and_readback_witness :
    (∀ fld ∈ requiredFields, (lookupField fld fieldsOk).isSome)
  ∧ (∀ fld ∈ requiredFields, lookupField fld fieldsOk ≠ some PyVal.none_)
  ∧ (∀ kv ∈ fieldsOk, kv.1 ∈ schemaColumns ∧ kv.1 ≠ "id")
  ∧ (fieldsOk.map Prod.fst).Nodup
  ∧ ∃ i db', add_experiment fieldsOk (runOps initDb [DbOp.create fieldsOk, DbOp.del 1])
        = (Except.ok i, db')
      ∧ i ∉ returnedIds initDb [DbOp.create fieldsOk, DbOp.del 1]
      ∧ ∃ r, get_experiment_by_id i db' = some r
          ∧ ∀ kv ∈ fieldsOk, lookupField kv.1 r.fields = some kv.2 :=
  ⟨by decide, by decide, by decide, by decide,
   create_fresh_and_readback [DbOp.create fieldsOk, DbOp.del 1] fieldsOk
     (by decide) (by decide) (by decide) (by decide)⟩
